import Mathlib

/-! Shallow embedding of the weewx WXT520 serial driver
(`bin/weewx/drivers/wxt520.py`) together with proofs about its acquisition
loop, line validation, packet decoding and record augmentation.

Modelling conventions:
* numeric values are rationals; the plain decimal literals the device emits
  are exact in this model;
* a Python dict mapping field names to float-or-`None` is an
  insertion-ordered association list read with last-binding-wins lookup,
  which matches Python dict assignment and `update` semantics;
* Python `None` stored in a record value is `Option.none`;
* code that can raise returns `Except Exc`, where `Exc` lists the exception
  classes relevant to the driver; the generator's `except` clause is the
  predicate `isCaught`;
* the serial port is replaced by a script: the list of raw strings that
  successive `readline()` calls return within one attempt, and the list of
  per-attempt outcomes across the life of the generator. -/

namespace WXT520

/-- Python exception classes that the driver code can raise or must catch. -/
inductive Exc
  | serialException   -- serial.serialutil.SerialException
  | weeWxIOError      -- weewx.WeeWxIOError
  | incompleteFrame   -- spec taxonomy: a WeeWxIOError for short fixed frames
  | valueError        -- ValueError (bad unpack / bad float literal)
  | keyError          -- KeyError (missing dict key)
  | typeError         -- TypeError (arithmetic on None)
  | nameError         -- NameError / UnboundLocalError (unbound local read)
deriving DecidableEq

/-- The except clause at wxt520.py line 106 catches exactly
`(serial.serialutil.SerialException, weewx.WeeWxIOError)`; the spec's
IncompleteFrame is a WeeWxIOError, so it is caught too.  Every other
exception propagates out of the generator uncaught. -/
def isCaught : Exc → Bool
  | .serialException => true
  | .weeWxIOError => true
  | .incompleteFrame => true
  | _ => false

/-- A record value: a float (`some q`) or Python `None` (`none`). -/
abbrev Val := Option ℚ

/-- A Python dict from field name to float-or-None, as an insertion-ordered
association list; lookups take the last binding (dict overwrite wins). -/
abbrev Data := List (String × Val)

/-- Dict lookup, last binding wins (Python `d[k]`, `k in d`). -/
def dictGet (d : Data) (k : String) : Option Val :=
  d.reverse.lookup k

/-- Dict assignment `d[k] = v`: with last-binding-wins lookup, appending a
binding is exactly Python's overwrite-or-insert. -/
def dictSet (d : Data) (k : String) (v : Val) : Data :=
  d ++ [(k, v)]

/-- Python truthiness of a float-or-None value, as used by
`not packet['windSpeed']`: `None` and `0.0` are falsy. -/
def falsy : Val → Bool
  | none => true
  | some q => decide (q = 0)

/-- Numeric value of a string of decimal digit characters. -/
def digitsVal (l : List Char) : Nat :=
  l.foldl (fun a c => 10 * a + (c.toNat - 48)) 0

/-- Python `str.split(sep)` for a one-character separator, on character
lists (structurally recursive so that proofs and witnesses can evaluate
it): splitting the empty string gives `[""]`, adjacent separators give
empty pieces, exactly as in Python. -/
def splitChar (sep : Char) : List Char → List (List Char)
  | [] => [[]]
  | c :: cs =>
      let r := splitChar sep cs
      if c = sep then [] :: r
      else
        match r with
        | [] => [[c]]
        | h :: t => (c :: h) :: t

/-- Python `str.strip()` on a character list: surrounding whitespace
removed. -/
def trimChars (l : List Char) : List Char :=
  ((l.dropWhile Char.isWhitespace).reverse.dropWhile Char.isWhitespace).reverse

/-- Python `s.replace('\r\n', '')` on a character list: every
carriage-return/newline pair deleted, scanning left to right. -/
def stripCRLF : List Char → List Char
  | [] => []
  | '\x0d' :: '\n' :: rest => stripCRLF rest
  | c :: rest => c :: stripCRLF rest

/-- Model of Python `float()` restricted to the plain decimal forms the
device emits: surrounding whitespace ignored, optional single sign, digits
with at most one dot and at least one digit overall.  Exponents, `inf` and
`nan` do not occur in this protocol and are not modelled.  Returns `none`
exactly where Python raises ValueError on such inputs. -/
def pyFloatChars (l : List Char) : Option ℚ :=
  let t := trimChars l
  let sgn : Int := if t.head? = some '-' then -1 else 1
  let u : List Char := if t.head? = some '-' ∨ t.head? = some '+' then t.drop 1 else t
  match splitChar '.' u with
  | [ip] =>
      if ip ≠ [] ∧ ip.all Char.isDigit then
        some (mkRat (sgn * digitsVal ip) 1)
      else none
  | [ip, fp] =>
      if (ip ≠ [] ∨ fp ≠ []) ∧ ip.all Char.isDigit ∧ fp.all Char.isDigit then
        some (mkRat (sgn * (digitsVal ip * 10 ^ fp.length + digitsVal fp)) (10 ^ fp.length))
      else none
  | _ => none

/-- wxt520.py line 264: `float(string[:-1])` — strip the single trailing
unit-marker character and parse the rest as a float; ValueError when the
remainder is not a float literal. -/
def remove_unit (s : String) : Except Exc ℚ :=
  match pyFloatChars s.data.dropLast with
  | some q => .ok q
  | none => .error .valueError

/-- The dict built by `Station.get_readings`: the `station_id` and
`pkt_type` entries from the first comma token, and the raw `code = value`
string fields from the remaining tokens. -/
structure Reading where
  station_id : String
  pkt_type : String
  fields : List (String × String)
deriving DecidableEq

/-- Raw-field lookup in a reading (`b["Sx"]`), last binding wins. -/
def getField (b : Reading) (k : String) : Option String :=
  b.fields.reverse.lookup k

/-- Model of `b[k]` on the readings dict: KeyError when the field is absent. -/
def lookupField (b : Reading) (k : String) : Except Exc String :=
  match getField b k with
  | some v => .ok v
  | none => .error .keyError

/-- Model of `remove_unit(b[k])` as used throughout `parse_readings`. -/
def fieldVal (b : Reading) (k : String) : Except Exc ℚ :=
  match lookupField b k with
  | .error e => .error e
  | .ok s => remove_unit s

/-- The constant entries written unconditionally at the end of
`parse_readings` (wxt520.py lines 231-238, the "fake stuffs"). -/
def fakeFields : Data :=
  [("inTemp", some 20), ("inHumidity", some 0.4),
   ("daily_rain", some 3.01), ("wind_average", some 12)]

/-- The entry written first by `parse_readings`, before any dispatch:
`data['long_term_rain'] = 0.` (wxt520.py line 184). -/
def baseFields : Data :=
  [("long_term_rain", some 0)]

/-- Model of `Station.parse_readings` (wxt520.py lines 171-240): dispatch on the
packet-type digit, decode each per-type field with `remove_unit`, with
`data['long_term_rain'] = 0.` set first and the constant fields appended
last.  Field accesses happen in source order, so the first missing key or
bad value determines the exception. -/
def parse_readings (b : Reading) : Except Exc Data :=
  if b.pkt_type = "1" then
    match fieldVal b "Sx" with
    | .error e => .error e
    | .ok sx =>
    match fieldVal b "Sm" with
    | .error e => .error e
    | .ok sm =>
    match fieldVal b "Sn" with
    | .error e => .error e
    | .ok sn =>
    match fieldVal b "Dx" with
    | .error e => .error e
    | .ok dx =>
    match fieldVal b "Dm" with
    | .error e => .error e
    | .ok dm =>
    match fieldVal b "Dn" with
    | .error e => .error e
    | .ok dn =>
      .ok (baseFields ++ [("windSpeedMax", some sx), ("windSpeed", some sm),
                    ("windSpeedMin", some sn), ("windDirMax", some dx),
                    ("windDir", some dm), ("windDirMin", some dn)] ++ fakeFields)
  else if b.pkt_type = "2" then
    match fieldVal b "Pa" with
    | .error e => .error e
    | .ok pa =>
    match fieldVal b "Ua" with
    | .error e => .error e
    | .ok ua =>
    match fieldVal b "Ta" with
    | .error e => .error e
    | .ok ta =>
      .ok (baseFields ++ [("pressure", some pa), ("outHumidity", some ua),
                    ("outTemp", some ta)] ++ fakeFields)
  else if b.pkt_type = "3" then
    match fieldVal b "Rc" with
    | .error e => .error e
    | .ok rc =>
    match fieldVal b "Rd" with
    | .error e => .error e
    | .ok rd =>
    match fieldVal b "Ri" with
    | .error e => .error e
    | .ok ri =>
    match fieldVal b "Rp" with
    | .error e => .error e
    | .ok rp =>
    match fieldVal b "Hc" with
    | .error e => .error e
    | .ok hc =>
    match fieldVal b "Hd" with
    | .error e => .error e
    | .ok hd =>
    match fieldVal b "Hi" with
    | .error e => .error e
    | .ok hi =>
    match fieldVal b "Hp" with
    | .error e => .error e
    | .ok hp =>
      .ok (baseFields ++ [("rainAccumulation", some rc), ("rainDuration", some rd),
                    ("rainIntensity", some ri), ("rainPeakIntensity", some rp),
                    ("hailAccumulation", some hc), ("hailDuration", some hd),
                    ("hailIntensity", some hi), ("hailPeakIntensity", some hp)]
             ++ fakeFields)
  else if b.pkt_type = "5" then
    match fieldVal b "Th" with
    | .error e => .error e
    | .ok th =>
    match fieldVal b "Vh" with
    | .error e => .error e
    | .ok vh =>
    match fieldVal b "Vs" with
    | .error e => .error e
    | .ok vs =>
    match fieldVal b "Vr" with
    | .error e => .error e
    | .ok vr =>
      .ok (baseFields ++ [("heatingTemp", some th), ("heatingVoltage", some vh),
                    ("supplyVoltage", some vs), ("referenceVoltage", some vr)]
             ++ fakeFields)
  else
    .ok (baseFields ++ fakeFields)

/-- The structural check at wxt520.py line 158, `re.match('^\dR\d', s)`:
the line starts with a decimal digit, the letter `R`, and a decimal digit.
(`\d` on a Python 2 byte string is `[0-9]`.) -/
def matchesPat (s : String) : Bool :=
  match s.data with
  | c0 :: c1 :: c2 :: _ => c0.isDigit && c1 = 'R' && c2.isDigit
  | _ => false

/-- Model of `ss[0].split('R')` unpacked into `station_id, pkt_type` (line 165):
ValueError unless the split yields exactly two parts. -/
def splitFirst (s : String) : Except Exc (String × String) :=
  match splitChar 'R' s.data with
  | [a, b] => .ok (⟨a⟩, ⟨b⟩)
  | _ => .error .valueError

/-- One token `x` of `ss[1:]` unpacked as `k, v = x.split('=')` (line 166):
ValueError unless the token has exactly one `=`. -/
def splitField (x : String) : Except Exc (String × String) :=
  match splitChar '=' x.data with
  | [k, v] => .ok (⟨k⟩, ⟨v⟩)
  | _ => .error .valueError

/-- The field tokens decoded in order; the first token that does not unpack
determines the ValueError (Python computes every split, then the dict
constructor unpacks the pairs left to right). -/
def splitAllFields : List String → Except Exc (List (String × String))
  | [] => .ok []
  | x :: xs =>
      match splitField x with
      | .error e => .error e
      | .ok kv =>
          match splitAllFields xs with
          | .error e => .error e
          | .ok rest => .ok (kv :: rest)

/-- The dict-building body of the `if` branch at lines 159-166, applied to
the comma-split tokens of a matching line. -/
def buildReading : List String → Except Exc Reading
  | [] => .error .valueError   -- unreachable: str.split(',') is never empty
  | s0 :: toks =>
      match splitFirst s0 with
      | .error e => .error e
      | .ok (sid, pt) =>
          match splitAllFields toks with
          | .error e => .error e
          | .ok fs => .ok ⟨sid, pt, fs⟩

/-- Result of one `Station.get_readings` call. -/
inductive GetResult
  | ok (d : Reading)     -- the while loop exited with `d` bound; `return d`
  | raised (e : Exc)     -- an exception escaped `get_readings`
  | blocked              -- every supplied line was empty: still in the loop
deriving DecidableEq

/-- Model of `Station.get_readings` (wxt520.py lines 153-169) on the raw strings the
successive `readline()` calls return.  Each raw line has `'\r\n'` removed;
an empty result keeps the `while s == ''` loop reading.  A line matching
`^\dR\d` is decoded and returned.  A non-empty line that does not match
makes `s` non-empty, so the `continue` falls out of the `while s == ''`
loop and `return d` reads the never-assigned local `d`: an
UnboundLocalError (a NameError). -/
def get_readings : List String → GetResult
  | [] => .blocked
  | raw :: rest =>
      let s : String := ⟨stripCRLF raw.data⟩
      if matchesPat s then
        match buildReading ((splitChar ',' s.data).map (fun l => (⟨l⟩ : String))) with
        | .ok d => .ok d
        | .error e => .raised e
      else if s = "" then get_readings rest
      else .raised .nameError

/-- The rain-delta expression of `_augment_packet` (lines 117-120):
`None` on the first read, otherwise `packet['long_term_rain'] - last_rain`,
a TypeError when that subtraction hits a `None` total. -/
def rainOf : Option ℚ → Val → Except Exc Val
  | none, _ => .ok none
  | some lr, some x => .ok (some (x - lr))
  | some _, none => .error .typeError

/-- The dict mutations of `WXT520Driver._augment_packet` (lines 115-125):
set `rain` to the computed delta, then null `windDir` whenever `windSpeed`
is present and falsy (`'windSpeed' in packet and not packet['windSpeed']`). -/
def augPacket (packet : Data) (rain : Val) : Data :=
  match dictGet (dictSet packet "rain" rain) "windSpeed" with
  | none => dictSet packet "rain" rain
  | some v =>
      if falsy v then dictSet (dictSet packet "rain" rain) "windDir" none
      else dictSet packet "rain" rain

/-- Model of `WXT520Driver._augment_packet` as a whole: compute the rain delta from
the carried `last_rain`, mutate the packet with `augPacket`, and remember
`packet['long_term_rain']` as the new `last_rain`.  A missing
`long_term_rain` key is a KeyError (a packet mutated before an exception is
discarded by the caller, so fetching the total first is observationally the
same as the source order). -/
def augment (packet : Data) (last_rain : Option ℚ) : Except Exc (Data × Option ℚ) :=
  match dictGet packet "long_term_rain" with
  | none => .error .keyError
  | some ltr =>
      match rainOf last_rain ltr with
      | .error e => .error e
      | .ok rain => .ok (augPacket packet rain, ltr)

/-- The `usUnits` tag `weewx.US` (the weewx module is outside src/; only
the constant's presence matters to the claims, not its value). -/
def US : ℚ := 1

/-- One iteration's interaction with the outside world: either opening the
port or a read raised an exception, or the port produced these raw lines
(with the timestamp `int(time.time() + 0.5)` of the attempt). -/
inductive Attempt
  | ioFail (e : Exc)
  | read (t : ℚ) (lines : List String)
deriving DecidableEq

/-- An attempt that fails with the retriable transport error. -/
def failAttempt : Attempt := .ioFail .serialException

/-- The per-iteration packet before augmentation: `{'dateTime': t,
'usUnits': weewx.US}` updated with the parsed data (lines 94-100). -/
def loopPacket (t : ℚ) (data : Data) : Data :=
  [("dateTime", some t), ("usUnits", some US)] ++ data

/-- The generator's cross-iteration state: the consecutive-failure counter
`ntries` and the carried `self.last_rain`. -/
structure LoopState where
  ntries : Nat
  last_rain : Option ℚ
deriving DecidableEq

/-- How a finite run of the generator ends. -/
inductive LoopEnd
  | retriesExceeded              -- the while/else raised weewx.RetriesExceeded
  | scriptEnded (st : LoopState) -- script exhausted, generator still alive
  | crashed (e : Exc)            -- an uncaught exception escaped the generator
  | blocked                      -- stuck inside get_readings reading empty lines
deriving DecidableEq

/-- Model of `WXT520Driver.genLoopPackets` (wxt520.py lines 89-113) run over a
finite script of attempts: the `while ntries < max_tries` loop with its
`ntries += 1` per attempt, reset to 0 on success before the yield, the
`except (SerialException, WeeWxIOError)` filter, and the `while`/`else`
raising RetriesExceeded once `ntries` reaches `max_tries`.  Returns the
yielded packets in order and how the run ended.  (Incrementing `ntries`
only on the failure path is observationally the body's increment-then-reset.) -/
def genLoopPackets (maxTries : Nat) (script : List Attempt) (st : LoopState) :
    List Data × LoopEnd :=
  if st.ntries < maxTries then
    match script with
    | [] => ([], .scriptEnded st)
    | a :: rest =>
        match a with
        | .ioFail e =>
            if isCaught e then
              genLoopPackets maxTries rest ⟨st.ntries + 1, st.last_rain⟩
            else ([], .crashed e)
        | .read t lines =>
            match get_readings lines with
            | .blocked => ([], .blocked)
            | .raised e =>
                if isCaught e then
                  genLoopPackets maxTries rest ⟨st.ntries + 1, st.last_rain⟩
                else ([], .crashed e)
            | .ok b =>
                match parse_readings b with
                | .error e =>
                    if isCaught e then
                      genLoopPackets maxTries rest ⟨st.ntries + 1, st.last_rain⟩
                    else ([], .crashed e)
                | .ok data =>
                    match augment (loopPacket t data) st.last_rain with
                    | .error e =>
                        if isCaught e then
                          genLoopPackets maxTries rest ⟨st.ntries + 1, st.last_rain⟩
                        else ([], .crashed e)
                    | .ok (p, lr) =>
                        let r := genLoopPackets maxTries rest ⟨0, lr⟩
                        (p :: r.1, r.2)
  else ([], .retriesExceeded)

/-- Hexadecimal value of one character, as `int(c, 16)` accepts it. -/
def hexDigit (c : Char) : Option Nat :=
  if c.isDigit then some (c.toNat - 48)
  else if 97 ≤ c.toNat ∧ c.toNat ≤ 102 then some (c.toNat - 87)
  else if 65 ≤ c.toNat ∧ c.toNat ≤ 70 then some (c.toNat - 55)
  else none

/-- Value of a big-endian hexadecimal digit string, `none` where
`int(s, 16)` raises ValueError on a non-hex character.  (The empty list
gives `some 0`; the call sites only pass slices of length 4.) -/
def hexNat : List Char → Option Nat
  | [] => some 0
  | c :: cs =>
      match hexDigit c, hexNat cs with
      | some d, some n => some (d * 16 ^ cs.length + n)
      | _, _ => none

/-- Whether a character is a hexadecimal ASCII digit. -/
def isHexChar (c : Char) : Bool :=
  (hexDigit c).isSome

/-- The numeric fields of the fixed-length legacy frame. -/
structure LegacyRecord where
  pressure_raw : Nat
  day_of_year : Nat
  minute_of_day : Nat
deriving DecidableEq

/-- Modelled from the spec: the legacy fixed-length frame decoder is not in
src/ (only the spec describes it, and commented-out slices in
`parse_readings` name its offsets).  Per the spec, a frame must consist of
exactly 48 hexadecimal ASCII characters; any other length raises
IncompleteFrame, and a 48-character frame is decoded as fixed-width hex
fields at known byte offsets (pressure at [16:20], day of year at [32:36],
minute of day at [36:40]). -/
def decode_legacy (frame : String) : Except Exc LegacyRecord :=
  if frame.length = 48 then
    match hexNat ((frame.data.drop 16).take 4),
          hexNat ((frame.data.drop 32).take 4),
          hexNat ((frame.data.drop 36).take 4) with
    | some p, some d, some m => .ok ⟨p, d, m⟩
    | _, _, _ => .error .valueError
  else .error .incompleteFrame

/-! Association-list lemmas for the dict model. -/

theorem lookup_append_left {α β : Type} [BEq α] (l1 l2 : List (α × β)) (k : α) (v : β)
    (h : l1.lookup k = some v) : (l1 ++ l2).lookup k = some v := by
  induction l1 with
  | nil => simp at h
  | cons a t ih =>
      obtain ⟨a1, a2⟩ := a
      simp only [List.cons_append, List.lookup_cons] at h ⊢
      cases hk : k == a1 with
      | true => rw [hk] at h; exact h
      | false => rw [hk] at h; exact ih h

theorem dictGet_append_right (d1 d2 : Data) (k : String) (v : Val)
    (h : dictGet d2 k = some v) : dictGet (d1 ++ d2) k = some v := by
  unfold dictGet at h ⊢
  rw [List.reverse_append]
  exact lookup_append_left _ _ _ _ h

theorem dictGet_set_same (d : Data) (k : String) (v : Val) :
    dictGet (dictSet d k v) k = some v := by
  unfold dictGet dictSet
  rw [List.reverse_append]
  simp

theorem dictGet_set_ne (d : Data) (k k' : String) (v : Val) (h : k' ≠ k) :
    dictGet (dictSet d k v) k' = dictGet d k' := by
  unfold dictGet dictSet
  rw [List.reverse_append]
  simp [List.lookup_cons, beq_false_of_ne h]

/-! Shape of every successfully parsed record. -/

/-- Every record `parse_readings` returns starts with the pinned
`long_term_rain = 0.0` binding and ends with the four constant fields,
whatever the packet type. -/
theorem parse_readings_fields (b : Reading) (data : Data)
    (h : parse_readings b = .ok data) :
    dictGet data "long_term_rain" = some (some 0)
    ∧ dictGet data "inTemp" = some (some 20)
    ∧ dictGet data "inHumidity" = some (some 0.4)
    ∧ dictGet data "daily_rain" = some (some 3.01)
    ∧ dictGet data "wind_average" = some (some 12) := by
  unfold parse_readings at h
  repeat' split at h
  all_goals first
    | exact Except.noConfusion h
    | (rw [Except.ok.injEq] at h
       subst h
       exact ⟨rfl, rfl, rfl, rfl, rfl⟩)

/-! Lemmas about the augmentation step. -/

theorem rainOf_none_inv (l' rain : Val) (h : rainOf none l' = .ok rain) :
    rain = none := by
  unfold rainOf at h
  rw [Except.ok.injEq] at h
  exact h.symm

theorem rainOf_some_inv (lr : ℚ) (l' rain : Val)
    (h : rainOf (some lr) l' = .ok rain) :
    ∃ x, l' = some x ∧ rain = some (x - lr) := by
  cases l' with
  | none => exact Except.noConfusion h
  | some x =>
      unfold rainOf at h
      rw [Except.ok.injEq] at h
      exact ⟨x, rfl, h.symm⟩

theorem rainOf_always_ok (lr : Option ℚ) (x : ℚ) :
    ∃ rain, rainOf lr (some x) = .ok rain := by
  cases lr with
  | none => exact ⟨none, rfl⟩
  | some l => exact ⟨some (x - l), rfl⟩

theorem augPacket_rain (packet : Data) (rain : Val) :
    dictGet (augPacket packet rain) "rain" = some rain := by
  unfold augPacket
  split
  · exact dictGet_set_same _ _ _
  · split
    · rw [dictGet_set_ne _ _ _ _ (by decide)]
      exact dictGet_set_same _ _ _
    · exact dictGet_set_same _ _ _

theorem augPacket_windSpeed (packet : Data) (rain : Val) :
    dictGet (augPacket packet rain) "windSpeed" = dictGet packet "windSpeed" := by
  unfold augPacket
  split
  · exact dictGet_set_ne _ _ _ _ (by decide)
  · split
    · rw [dictGet_set_ne _ _ _ _ (by decide)]
      exact dictGet_set_ne _ _ _ _ (by decide)
    · exact dictGet_set_ne _ _ _ _ (by decide)

theorem augPacket_windDir_of_zero (packet : Data) (rain : Val)
    (h : dictGet packet "windSpeed" = some (some 0)) :
    dictGet (augPacket packet rain) "windDir" = some none := by
  have h1 : dictGet (dictSet packet "rain" rain) "windSpeed" = some (some 0) :=
    (dictGet_set_ne _ _ _ _ (by decide)).trans h
  have hf : falsy (some 0) = true := by
    unfold falsy
    exact decide_eq_true rfl
  unfold augPacket
  rw [h1]
  simp only [hf, if_true]
  exact dictGet_set_same _ _ _

theorem augment_ok (packet : Data) (lr : Option ℚ) (q : ℚ)
    (h : dictGet packet "long_term_rain" = some (some q)) (rain : Val)
    (hr : rainOf lr (some q) = .ok rain) :
    augment packet lr = .ok (augPacket packet rain, some q) := by
  unfold augment
  simp only [h, hr]

theorem augment_ok_inv (packet : Data) (lr : Option ℚ) (p' : Data) (l' : Val)
    (h : augment packet lr = .ok (p', l')) :
    ∃ rain, rainOf lr l' = .ok rain ∧ dictGet packet "long_term_rain" = some l'
      ∧ p' = augPacket packet rain := by
  unfold augment at h
  split at h
  · exact Except.noConfusion h
  · rename_i ltr heq
    split at h
    · exact Except.noConfusion h
    · rename_i rain hr
      rw [Except.ok.injEq, Prod.mk.injEq] at h
      obtain ⟨hp, hl⟩ := h
      subst hl
      exact ⟨rain, hr, heq, hp.symm⟩

/-! Step lemmas for the acquisition loop. -/

theorem genLoop_stop (maxTries : Nat) (script : List Attempt) (st : LoopState)
    (h : ¬ st.ntries < maxTries) :
    genLoopPackets maxTries script st = ([], .retriesExceeded) := by
  unfold genLoopPackets
  rw [if_neg h]

theorem genLoop_nil (maxTries : Nat) (st : LoopState) (h : st.ntries < maxTries) :
    genLoopPackets maxTries [] st = ([], .scriptEnded st) := by
  unfold genLoopPackets
  rw [if_pos h]

theorem genLoop_caught (maxTries : Nat) (e : Exc) (rest : List Attempt)
    (st : LoopState) (h : st.ntries < maxTries) (hc : isCaught e = true) :
    genLoopPackets maxTries (.ioFail e :: rest) st =
      genLoopPackets maxTries rest ⟨st.ntries + 1, st.last_rain⟩ := by
  conv_lhs => rw [genLoopPackets.eq_def]
  rw [if_pos h]
  simp only [hc, if_true]
  try rfl

theorem genLoop_io_crash (maxTries : Nat) (e : Exc) (rest : List Attempt)
    (st : LoopState) (h : st.ntries < maxTries) (hc : isCaught e = false) :
    genLoopPackets maxTries (.ioFail e :: rest) st = ([], .crashed e) := by
  conv_lhs => rw [genLoopPackets.eq_def]
  rw [if_pos h]
  simp only [hc, if_false]
  try rfl

theorem genLoop_read_caught (maxTries : Nat) (t : ℚ) (lines : List String)
    (e : Exc) (rest : List Attempt) (st : LoopState) (h : st.ntries < maxTries)
    (hg : get_readings lines = .raised e) (hc : isCaught e = true) :
    genLoopPackets maxTries (.read t lines :: rest) st =
      genLoopPackets maxTries rest ⟨st.ntries + 1, st.last_rain⟩ := by
  conv_lhs => rw [genLoopPackets.eq_def]
  rw [if_pos h]
  simp only [hg, hc, if_true]
  try rfl

theorem genLoop_read_crash (maxTries : Nat) (t : ℚ) (lines : List String)
    (e : Exc) (rest : List Attempt) (st : LoopState) (h : st.ntries < maxTries)
    (hg : get_readings lines = .raised e) (hc : isCaught e = false) :
    genLoopPackets maxTries (.read t lines :: rest) st = ([], .crashed e) := by
  conv_lhs => rw [genLoopPackets.eq_def]
  rw [if_pos h]
  simp only [hg, hc, if_false]
  try rfl

theorem genLoop_emit (maxTries : Nat) (t : ℚ) (lines : List String)
    (b : Reading) (data : Data) (p : Data) (lr : Option ℚ)
    (rest : List Attempt) (st : LoopState) (h : st.ntries < maxTries)
    (hg : get_readings lines = .ok b) (hp : parse_readings b = .ok data)
    (ha : augment (loopPacket t data) st.last_rain = .ok (p, lr)) :
    genLoopPackets maxTries (.read t lines :: rest) st =
      (p :: (genLoopPackets maxTries rest ⟨0, lr⟩).1,
       (genLoopPackets maxTries rest ⟨0, lr⟩).2) := by
  conv_lhs => rw [genLoopPackets.eq_def]
  rw [if_pos h]
  simp only [hg, hp, ha]
  try rfl

theorem genLoop_read_blocked (maxTries : Nat) (t : ℚ) (lines : List String)
    (rest : List Attempt) (st : LoopState) (h : st.ntries < maxTries)
    (hg : get_readings lines = .blocked) :
    genLoopPackets maxTries (.read t lines :: rest) st = ([], .blocked) := by
  conv_lhs => rw [genLoopPackets.eq_def]
  rw [if_pos h]
  simp only [hg]
  try rfl

theorem genLoop_parse_caught (maxTries : Nat) (t : ℚ) (lines : List String)
    (b : Reading) (e : Exc) (rest : List Attempt) (st : LoopState)
    (h : st.ntries < maxTries) (hg : get_readings lines = .ok b)
    (hp : parse_readings b = .error e) (hc : isCaught e = true) :
    genLoopPackets maxTries (.read t lines :: rest) st =
      genLoopPackets maxTries rest ⟨st.ntries + 1, st.last_rain⟩ := by
  conv_lhs => rw [genLoopPackets.eq_def]
  rw [if_pos h]
  simp only [hg, hp, hc, if_true]
  try rfl

theorem genLoop_parse_crash (maxTries : Nat) (t : ℚ) (lines : List String)
    (b : Reading) (e : Exc) (rest : List Attempt) (st : LoopState)
    (h : st.ntries < maxTries) (hg : get_readings lines = .ok b)
    (hp : parse_readings b = .error e) (hc : isCaught e = false) :
    genLoopPackets maxTries (.read t lines :: rest) st = ([], .crashed e) := by
  conv_lhs => rw [genLoopPackets.eq_def]
  rw [if_pos h]
  simp only [hg, hp, hc, if_false]
  try rfl

theorem genLoop_failAttempt (maxTries : Nat) (rest : List Attempt)
    (n : Nat) (lr : Option ℚ) (h : n < maxTries) :
    genLoopPackets maxTries (failAttempt :: rest) ⟨n, lr⟩ =
      genLoopPackets maxTries rest ⟨n + 1, lr⟩ :=
  genLoop_caught maxTries .serialException rest ⟨n, lr⟩ h rfl

theorem genLoop_fail_exhaust (maxTries : Nat) (rest : List Attempt) :
    ∀ (k n : Nat) (lr : Option ℚ), n + k = maxTries →
      genLoopPackets maxTries (List.replicate k failAttempt ++ rest) ⟨n, lr⟩
        = ([], .retriesExceeded)
  | 0, n, lr, hk => by
      rw [List.replicate_zero, List.nil_append]
      exact genLoop_stop maxTries rest ⟨n, lr⟩ (by show ¬ n < maxTries; omega)
  | k + 1, n, lr, hk => by
      rw [List.replicate_succ, List.cons_append]
      rw [genLoop_failAttempt maxTries _ n lr (by omega)]
      exact genLoop_fail_exhaust maxTries rest k (n + 1) lr (by omega)

theorem genLoop_fail_survive (maxTries : Nat) :
    ∀ (j n : Nat) (lr : Option ℚ), n + j < maxTries →
      genLoopPackets maxTries (List.replicate j failAttempt) ⟨n, lr⟩
        = ([], .scriptEnded ⟨n + j, lr⟩)
  | 0, n, lr, hj => by
      rw [List.replicate_zero]
      exact genLoop_nil maxTries ⟨n, lr⟩ (by show n < maxTries; omega)
  | j + 1, n, lr, hj => by
      rw [List.replicate_succ]
      rw [genLoop_failAttempt maxTries _ n lr (by omega)]
      rw [genLoop_fail_survive maxTries j (n + 1) lr (by omega)]
      have harith : n + 1 + j = n + (j + 1) := by omega
      rw [harith]

/-- The packet handed to `_augment_packet` keeps the pinned
`long_term_rain = 0.0` from `parse_readings`. -/
theorem loopPacket_ltr (t : ℚ) (b : Reading) (data : Data)
    (h : parse_readings b = .ok data) :
    dictGet (loopPacket t data) "long_term_rain" = some (some 0) :=
  dictGet_append_right _ _ _ _ (parse_readings_fields b data h).1

/-- Structure of what the loop emits: (i) every emitted record is an
augmented loop packet over a successfully parsed reading; (ii) from a state
whose carried `last_rain` is `some 0`, every emitted record has
`rain = 0.0`; (iii) a first record emitted from a state with no carried
rain has `rain = None`; (iv) every record after the first has
`rain = 0.0`. -/
theorem genLoop_records (maxTries : Nat) :
    ∀ (script : List Attempt) (st : LoopState),
      (∀ p, p ∈ (genLoopPackets maxTries script st).1 →
        ∃ (t : ℚ) (b : Reading) (data : Data) (rain : Val),
          parse_readings b = .ok data ∧ p = augPacket (loopPacket t data) rain)
      ∧ (st.last_rain = some 0 →
          ∀ p, p ∈ (genLoopPackets maxTries script st).1 →
            dictGet p "rain" = some (some 0))
      ∧ (∀ (p : Data) (ps : List Data) (e : LoopEnd),
          genLoopPackets maxTries script st = (p :: ps, e) →
          st.last_rain = none → dictGet p "rain" = some none)
      ∧ (∀ p, p ∈ ((genLoopPackets maxTries script st).1).drop 1 →
          dictGet p "rain" = some (some 0))
  | [], st => by
      by_cases hlt : st.ntries < maxTries
      · rw [genLoop_nil maxTries st hlt]
        exact ⟨fun p hp => absurd hp (List.not_mem_nil p),
               fun _ p hp => absurd hp (List.not_mem_nil p),
               fun p ps e h _ => List.noConfusion (congrArg Prod.fst h),
               fun p hp => absurd hp (List.not_mem_nil p)⟩
      · rw [genLoop_stop maxTries [] st hlt]
        exact ⟨fun p hp => absurd hp (List.not_mem_nil p),
               fun _ p hp => absurd hp (List.not_mem_nil p),
               fun p ps e h _ => List.noConfusion (congrArg Prod.fst h),
               fun p hp => absurd hp (List.not_mem_nil p)⟩
  | a :: rest, st => by
      have IH := genLoop_records maxTries rest
      by_cases hlt : st.ntries < maxTries
      · cases a with
        | ioFail e =>
            cases hc : isCaught e with
            | true =>
                rw [genLoop_caught maxTries e rest st hlt hc]
                exact IH ⟨st.ntries + 1, st.last_rain⟩
            | false =>
                rw [genLoop_io_crash maxTries e rest st hlt hc]
                exact ⟨fun p hp => absurd hp (List.not_mem_nil p),
                       fun _ p hp => absurd hp (List.not_mem_nil p),
                       fun p ps e h _ => List.noConfusion (congrArg Prod.fst h),
                       fun p hp => absurd hp (List.not_mem_nil p)⟩
        | read t lines =>
            cases hg : get_readings lines with
            | blocked =>
                rw [genLoop_read_blocked maxTries t lines rest st hlt hg]
                exact ⟨fun p hp => absurd hp (List.not_mem_nil p),
                       fun _ p hp => absurd hp (List.not_mem_nil p),
                       fun p ps e h _ => List.noConfusion (congrArg Prod.fst h),
                       fun p hp => absurd hp (List.not_mem_nil p)⟩
            | raised e =>
                cases hc : isCaught e with
                | true =>
                    rw [genLoop_read_caught maxTries t lines e rest st hlt hg hc]
                    exact IH ⟨st.ntries + 1, st.last_rain⟩
                | false =>
                    rw [genLoop_read_crash maxTries t lines e rest st hlt hg hc]
                    exact ⟨fun p hp => absurd hp (List.not_mem_nil p),
                           fun _ p hp => absurd hp (List.not_mem_nil p),
                           fun p ps e h _ => List.noConfusion (congrArg Prod.fst h),
                           fun p hp => absurd hp (List.not_mem_nil p)⟩
            | ok b =>
                cases hp : parse_readings b with
                | error e =>
                    cases hc : isCaught e with
                    | true =>
                        rw [genLoop_parse_caught maxTries t lines b e rest st hlt hg hp hc]
                        exact IH ⟨st.ntries + 1, st.last_rain⟩
                    | false =>
                        rw [genLoop_parse_crash maxTries t lines b e rest st hlt hg hp hc]
                        exact ⟨fun p hp => absurd hp (List.not_mem_nil p),
                               fun _ p hp => absurd hp (List.not_mem_nil p),
                               fun p ps e h _ => List.noConfusion (congrArg Prod.fst h),
                               fun p hp => absurd hp (List.not_mem_nil p)⟩
                | ok data =>
                    have hltr := loopPacket_ltr t b data hp
                    obtain ⟨rain, hr⟩ := rainOf_always_ok st.last_rain 0
                    have ha := augment_ok (loopPacket t data) st.last_rain 0 hltr rain hr
                    rw [genLoop_emit maxTries t lines b data _ (some 0) rest st hlt hg hp ha]
                    obtain ⟨ih1, ih2, ih3, ih4⟩ := IH ⟨0, some 0⟩
                    refine ⟨?_, ?_, ?_, ?_⟩
                    · intro p hp'
                      rcases List.mem_cons.mp hp' with hhead | htail
                      · exact ⟨t, b, data, rain, hp, hhead⟩
                      · exact ih1 p htail
                    · intro h0 p hp'
                      rcases List.mem_cons.mp hp' with hhead | htail
                      · subst hhead
                        rw [h0] at hr
                        obtain ⟨x, hx, hrain⟩ := rainOf_some_inv 0 (some 0) rain hr
                        obtain rfl : (0 : ℚ) = x := Option.some.inj hx
                        rw [augPacket_rain, hrain]
                        norm_num
                      · exact ih2 rfl p htail
                    · intro p ps e h hnone
                      rw [Prod.mk.injEq] at h
                      obtain ⟨h1, _⟩ := h
                      injection h1 with hhead _
                      subst hhead
                      rw [hnone] at hr
                      have hrn := rainOf_none_inv (some 0) rain hr
                      subst hrn
                      exact augPacket_rain _ _
                    · intro p hp'
                      exact ih2 rfl p hp'
      · rw [genLoop_stop maxTries (a :: rest) st hlt]
        exact ⟨fun p hp => absurd hp (List.not_mem_nil p),
               fun _ p hp => absurd hp (List.not_mem_nil p),
               fun p ps e h _ => List.noConfusion (congrArg Prod.fst h),
               fun p hp => absurd hp (List.not_mem_nil p)⟩

/-! The claims. -/

/-- Claim C1: in `genLoopPackets`, once the consecutive failed attempts
(retriable transport errors) reach `max_tries`, the loop raises
RetriesExceeded and yields no further records regardless of what the rest
of the script holds; and a successful read resets the failure counter to
zero, so after a success any `j < max_tries` further failures leave the
generator alive (with the counter at `j`) rather than raising. -/
theorem claimC1_retries_exceeded_and_reset
    (maxTries k j n : Nat) (lr0 : Option ℚ) (rest : List Attempt)
    (t : ℚ) (lines : List String) (b : Reading) (data : Data)
    (hk : n + k = maxTries) (hn : n < maxTries)
    (hread : get_readings lines = .ok b)
    (hparse : parse_readings b = .ok data)
    (hj : j < maxTries) :
    genLoopPackets maxTries (List.replicate k failAttempt ++ rest) ⟨n, lr0⟩
        = ([], .retriesExceeded)
    ∧ ∃ p, genLoopPackets maxTries
        (.read t lines :: List.replicate j failAttempt) ⟨n, lr0⟩
        = ([p], .scriptEnded ⟨j, some 0⟩) := by
  constructor
  · exact genLoop_fail_exhaust maxTries rest k n lr0 hk
  · have hltr := loopPacket_ltr t b data hparse
    obtain ⟨rain, hr⟩ := rainOf_always_ok lr0 0
    have ha := augment_ok (loopPacket t data) lr0 0 hltr rain hr
    refine ⟨augPacket (loopPacket t data) rain, ?_⟩
    rw [genLoop_emit maxTries t lines b data _ (some 0) _ ⟨n, lr0⟩ hn hread hparse ha]
    rw [genLoop_fail_survive maxTries j 0 (some 0) (by omega)]
    rw [Nat.zero_add]

/-- Claim C1 witness: with `max_tries = 2`, two consecutive transport
failures raise RetriesExceeded with nothing yielded, while a successful
read of an unknown-type packet resets the counter so that one further
failure leaves the generator alive. -/
theorem claimC1_witness :
    genLoopPackets 2 (List.replicate 2 failAttempt ++ []) ⟨0, none⟩
        = ([], .retriesExceeded)
    ∧ ∃ p, genLoopPackets 2
        (.read 0 ["0R9,a=b"] :: List.replicate 1 failAttempt) ⟨0, none⟩
        = ([p], .scriptEnded ⟨1, some 0⟩) :=
  claimC1_retries_exceeded_and_reset 2 2 1 0 none [] 0 ["0R9,a=b"]
    ⟨"0", "9", [("a", "b")]⟩ (baseFields ++ fakeFields)
    rfl (by decide) rfl rfl (by decide)

/-- Claim C2: under `_augment_packet`, with no carried rain the record's
`rain` is `None`; with carried rain `lr`, the record's `rain` is exactly
`long_term_rain − lr` and the carried value becomes the packet's
`long_term_rain`; the difference passes through unclamped in either sign;
and at loop level the first record emitted from a fresh session (no
carried rain) has `rain = None`. -/
theorem claimC2_incremental_rain (packet : Data) (ltr lr : ℚ)
    (h : dictGet packet "long_term_rain" = some (some ltr)) :
    (∃ p1, augment packet none = .ok (p1, some ltr)
      ∧ dictGet p1 "rain" = some none)
    ∧ (∃ p2, augment packet (some lr) = .ok (p2, some ltr)
      ∧ dictGet p2 "rain" = some (some (ltr - lr)))
    ∧ (lr < ltr → 0 < ltr - lr) ∧ (ltr < lr → ltr - lr < 0)
    ∧ (∀ (maxTries n : Nat) (script : List Attempt) (p : Data)
        (ps : List Data) (e : LoopEnd),
        genLoopPackets maxTries script ⟨n, none⟩ = (p :: ps, e) →
        dictGet p "rain" = some none) :=
  ⟨⟨augPacket packet none, augment_ok packet none ltr h none rfl,
      augPacket_rain _ _⟩,
   ⟨augPacket packet (some (ltr - lr)),
      augment_ok packet (some lr) ltr h (some (ltr - lr)) rfl,
      augPacket_rain _ _⟩,
   fun hlt => by linarith, fun hlt => by linarith,
   fun maxTries n script p ps e hrun =>
     (genLoop_records maxTries script ⟨n, none⟩).2.2.1 p ps e hrun rfl⟩

/-- Claim C2 witness: a packet whose `long_term_rain` is 0.05 against a
carried 0 yields `rain = 0.05 − 0`, unclamped. -/
theorem claimC2_witness :
    ∃ p2, augment [("long_term_rain", some 0.05)] (some 0)
        = .ok (p2, some 0.05)
      ∧ dictGet p2 "rain" = some (some (0.05 - 0)) :=
  (claimC2_incremental_rain [("long_term_rain", some 0.05)] 0.05 0 rfl).2.1

/-- Claim C5: every record the loop emits that carries `windSpeed` exactly
zero has `windDir = None`, whatever direction values the packet decoded. -/
theorem claimC5_windDir_null_at_zero_speed (maxTries : Nat)
    (script : List Attempt) (st : LoopState) (p : Data)
    (hp : p ∈ (genLoopPackets maxTries script st).1)
    (hws : dictGet p "windSpeed" = some (some 0)) :
    dictGet p "windDir" = some none := by
  obtain ⟨t, b, data, rain, hparse, rfl⟩ :=
    (genLoop_records maxTries script st).1 p hp
  exact augPacket_windDir_of_zero _ _
    ((augPacket_windSpeed _ _).symm.trans hws)

/-- Claim C9: `parse_readings` unconditionally pins `long_term_rain` to
`0.0` for every packet type; consequently, in any run every emitted record
after the first has `rain = 0.0`. -/
theorem claimC9_long_term_rain_pinned (b : Reading) (data : Data)
    (maxTries : Nat) (script : List Attempt) (st : LoopState) (p : Data)
    (hparse : parse_readings b = .ok data)
    (hp : p ∈ ((genLoopPackets maxTries script st).1).drop 1) :
    dictGet data "long_term_rain" = some (some 0)
    ∧ dictGet p "rain" = some (some 0) :=
  ⟨(parse_readings_fields b data hparse).1,
   (genLoop_records maxTries script st).2.2.2 p hp⟩

/-- Claim C10: every record `parse_readings` returns — for every packet
type, known or unknown — contains the constants `inTemp = 20.0`,
`inHumidity = 0.4`, `daily_rain = 3.01` and `wind_average = 12.0`. -/
theorem claimC10_constant_fields (b : Reading) (data : Data)
    (h : parse_readings b = .ok data) :
    dictGet data "inTemp" = some (some 20)
    ∧ dictGet data "inHumidity" = some (some 0.4)
    ∧ dictGet data "daily_rain" = some (some 3.01)
    ∧ dictGet data "wind_average" = some (some 12) :=
  ⟨(parse_readings_fields b data h).2.1,
   (parse_readings_fields b data h).2.2.1,
   (parse_readings_fields b data h).2.2.2.1,
   (parse_readings_fields b data h).2.2.2.2⟩

/-- Claim C10 witness: a packet of unknown type 9 still gets the four
constants. -/
theorem claimC10_witness :
    dictGet (baseFields ++ fakeFields) "inTemp" = some (some 20)
    ∧ dictGet (baseFields ++ fakeFields) "inHumidity" = some (some 0.4)
    ∧ dictGet (baseFields ++ fakeFields) "daily_rain" = some (some 3.01)
    ∧ dictGet (baseFields ++ fakeFields) "wind_average" = some (some 12) :=
  claimC10_constant_fields ⟨"0", "9", []⟩ (baseFields ++ fakeFields) rfl

/-- The one validated wind line used to witness claim C5: a type-1 packet
whose wind speeds are all zero but whose direction fields are nonzero. -/
def lineWindZero : String := "0R1,Dn=045#,Dm=090#,Dx=180#,Sn=0.0M,Sm=0.0M,Sx=0.0M"

/-- The decoded record of `lineWindZero`. -/
def dataWindZero : Data :=
  baseFields ++ [("windSpeedMax", some 0), ("windSpeed", some 0),
    ("windSpeedMin", some 0), ("windDirMax", some 180),
    ("windDir", some 90), ("windDirMin", some 45)] ++ fakeFields

/-- Claim C5 witness: the record emitted for `lineWindZero` has decoded
direction 90 but zero speed, and its final `windDir` is `None`. -/
theorem claimC5_witness :
    dictGet (augPacket (loopPacket 0 dataWindZero) none) "windDir"
      = some none := by
  apply claimC5_windDir_null_at_zero_speed 5 [.read 0 [lineWindZero]] ⟨0, none⟩
  · show augPacket (loopPacket 0 dataWindZero) none
        ∈ (genLoopPackets 5 [.read 0 [lineWindZero]] ⟨0, none⟩).1
    have h : (genLoopPackets 5 [.read 0 [lineWindZero]] ⟨0, none⟩).1
        = [augPacket (loopPacket 0 dataWindZero) none] := rfl
    rw [h]
    exact List.mem_singleton_self _
  · rfl

/-- Claim C9 witness: in a two-read session of unknown-type packets, the
parsed record pins `long_term_rain = 0.0` and the second emitted record
has `rain = 0.0`. -/
theorem claimC9_witness :
    dictGet (baseFields ++ fakeFields) "long_term_rain" = some (some 0)
    ∧ dictGet (augPacket (loopPacket 1 (baseFields ++ fakeFields))
        (some (0 - 0))) "rain" = some (some 0) := by
  apply claimC9_long_term_rain_pinned ⟨"0", "9", [("a", "b")]⟩
    (baseFields ++ fakeFields) 5
    [.read 0 ["0R9,a=b"], .read 1 ["0R9,a=b"]] ⟨0, none⟩ _ rfl
  show _ ∈ ((genLoopPackets 5
      [.read 0 ["0R9,a=b"], .read 1 ["0R9,a=b"]] ⟨0, none⟩).1).drop 1
  have h : ((genLoopPackets 5
      [.read 0 ["0R9,a=b"], .read 1 ["0R9,a=b"]] ⟨0, none⟩).1).drop 1
      = [augPacket (loopPacket 1 (baseFields ++ fakeFields)) (some (0 - 0))] := rfl
  rw [h]
  exact List.mem_singleton_self _

/-- The validator acceptance condition in the spec's words: one digit, one
letter, one digit at the start, followed by a comma.  (Stated from the
spec, for comparison with the implemented `matchesPat`.) -/
def specPattern (s : String) : Bool :=
  match s.data with
  | c0 :: c1 :: c2 :: c3 :: _ =>
      c0.isDigit && c1.isAlpha && c2.isDigit && (c3 = ',')
  | _ => false

/-- Claim C6 counterexample: the implemented validator `^\dR\d` differs
from the claimed "digit, letter, digit, comma" rule in both directions:
`"0A1,"` satisfies the claimed pattern but the code rejects it (the letter
must be `R`), and `"0R1"` without any comma is accepted by the code though
the claimed pattern rejects it. -/
theorem claimC6_counterexample :
    specPattern "0A1," = true ∧ matchesPat "0A1," = false
    ∧ matchesPat "0R1" = true ∧ specPattern "0R1" = false :=
  ⟨rfl, rfl, rfl, rfl⟩

/-- Claim C6 amended: the validator passes a line exactly when its first
three characters are a decimal digit, the letter `R`, and a decimal digit;
the letter must be `R` specifically, and no comma is required. -/
theorem claimC6_amended (s : String) :
    matchesPat s = true ↔
      3 ≤ s.data.length
      ∧ (s.data.getD 0 ' ').isDigit = true
      ∧ s.data.getD 1 ' ' = 'R'
      ∧ (s.data.getD 2 ' ').isDigit = true := by
  unfold matchesPat
  generalize s.data = l
  match l with
  | [] => simp
  | [c0] => simp
  | [c0, c1] => simp
  | c0 :: c1 :: c2 :: rest =>
      simp [List.getD, Bool.and_eq_true, decide_eq_true_eq, and_assoc]

/-- The reading decoded from the type-1 packet of claim C7. -/
def readingWind : Reading :=
  ⟨"0", "1", [("Dn", "045#"), ("Dm", "090#"), ("Dx", "180#"),
              ("Sn", "1.1M"), ("Sm", "2.2M"), ("Sx", "3.3M")]⟩

/-- The record parsed from `readingWind`. -/
def dataWind : Data :=
  baseFields ++ [("windSpeedMax", some 3.3), ("windSpeed", some 2.2),
    ("windSpeedMin", some 1.1), ("windDirMax", some 180),
    ("windDir", some 90), ("windDirMin", some 45)] ++ fakeFields

/-- Claim C7: decoding the tagged value `"21.2M"` strips exactly the
trailing unit marker and parses the rest, yielding 21.2; and the full
reader/decoder pipeline on the type-1 packet
`0R1,Dn=045#,Dm=090#,Dx=180#,Sn=1.1M,Sm=2.2M,Sx=3.3M` yields a record
with the six claimed wind fields. -/
theorem claimC7_tagged_value_and_wind_packet :
    remove_unit "21.2M" = .ok (21.2 : ℚ)
    ∧ ∃ b data,
        get_readings ["0R1,Dn=045#,Dm=090#,Dx=180#,Sn=1.1M,Sm=2.2M,Sx=3.3M"]
          = .ok b
        ∧ parse_readings b = .ok data
        ∧ dictGet data "windDirMin" = some (some 45)
        ∧ dictGet data "windDir" = some (some 90)
        ∧ dictGet data "windDirMax" = some (some 180)
        ∧ dictGet data "windSpeedMin" = some (some 1.1)
        ∧ dictGet data "windSpeed" = some (some 2.2)
        ∧ dictGet data "windSpeedMax" = some (some 3.3) := by
  refine ⟨by with_unfolding_all rfl, readingWind, dataWind,
          rfl, by with_unfolding_all rfl, rfl, rfl, rfl, rfl, rfl, rfl⟩

/-- Claim C3 (the code, against the claim): a non-empty line that fails
validation does not keep the reader going.  The `continue` re-tests
`while s == ''`, which is now false, so control reaches `return d` with
the local `d` never assigned, raising UnboundLocalError; that error is not
among the caught classes, so the whole generator crashes, emitting
nothing, instead of counting or skipping.  Only empty lines keep the
reader going (last conjunct). -/
theorem claimC3_invalid_line_crashes :
    get_readings ["garbage", "0R1,Ta=21.2C"] = .raised .nameError
    ∧ isCaught .nameError = false
    ∧ genLoopPackets 5 [.read 0 ["garbage", "0R1,Ta=21.2C"]] ⟨0, none⟩
        = ([], .crashed .nameError)
    ∧ get_readings ["", "0R9,a=b"] = .ok ⟨"0", "9", [("a", "b")]⟩ :=
  ⟨rfl, rfl, rfl, rfl⟩

/-- Claim C4 counterexample: on the validated packet line `"0R1,Sx"`,
whose token `Sx` has no `=`, `get_readings` raises ValueError; ValueError
is not among the exceptions the loop's except clause catches, so the
generator crashes without consuming any further attempt — the failure is
not counted against the retry budget and is not retried, contrary to the
claim. -/
theorem claimC4_counterexample :
    get_readings ["0R1,Sx"] = .raised .valueError
    ∧ isCaught .valueError = false
    ∧ genLoopPackets 5 [.read 0 ["0R1,Sx"], .read 1 ["0R9,a=b"]] ⟨0, none⟩
        = ([], .crashed .valueError) :=
  ⟨rfl, rfl, rfl⟩

theorem splitField_error (bad : String)
    (hbad : (splitChar '=' bad.data).length ≠ 2) :
    splitField bad = .error .valueError := by
  unfold splitField
  split
  · rename_i k v heq
    exact absurd (by rw [heq]; rfl) hbad
  · rfl

theorem splitAllFields_append_error (good : List String)
    (pre : List (String × String)) (bad : String) (post : List String)
    (hgood : splitAllFields good = .ok pre)
    (hbad : splitField bad = .error .valueError) :
    splitAllFields (good ++ bad :: post) = .error .valueError := by
  induction good generalizing pre with
  | nil =>
      rw [List.nil_append]
      unfold splitAllFields
      rw [hbad]
  | cons x xs ih =>
      rw [List.cons_append]
      unfold splitAllFields at hgood ⊢
      cases hx : splitField x with
      | error e =>
          rw [hx] at hgood
          exact Except.noConfusion hgood
      | ok kv =>
          rw [hx] at hgood
          cases hxs : splitAllFields xs with
          | error e =>
              rw [hxs] at hgood
              exact Except.noConfusion hgood
          | ok rest' =>
              rw [ih rest' hxs]

/-- Claim C4 amended: a field token that does not split into exactly one
code and one value on `=` makes the packet decode raise ValueError,
rejecting the whole packet; but since ValueError is not among the caught
exception classes, the generator crashes uncaught instead of counting the
attempt as a failure and retrying it like a transport error. -/
theorem claimC4_malformed_field_crashes
    (maxTries : Nat) (st : LoopState) (t : ℚ) (rest : List Attempt)
    (lines : List String) (s0 sid pt bad : String)
    (good : List String) (pre : List (String × String)) (post : List String)
    (hst : st.ntries < maxTries)
    (hs0 : splitChar 'R' s0.data = [sid.data, pt.data])
    (hgood : splitAllFields good = .ok pre)
    (hbad : (splitChar '=' bad.data).length ≠ 2)
    (hget : get_readings lines = .raised .valueError) :
    buildReading (s0 :: (good ++ bad :: post)) = .error .valueError
    ∧ genLoopPackets maxTries (.read t lines :: rest) st
        = ([], .crashed .valueError) := by
  constructor
  · have h1 : splitFirst s0 = .ok (sid, pt) := by
      unfold splitFirst
      rw [hs0]
    have h2 := splitAllFields_append_error good pre bad post hgood
      (splitField_error bad hbad)
    simp only [buildReading, h1, h2]
  · exact genLoop_read_crash maxTries t lines .valueError rest st hst hget rfl

/-- Claim C4 witness: the line `0R1,a=1#,Sx` has one well-formed field and
then the malformed token `Sx`; its decode raises ValueError and the
generator crashes without retrying. -/
theorem claimC4_witness :
    buildReading ("0R1" :: (["a=1#"] ++ "Sx" :: [])) = .error .valueError
    ∧ genLoopPackets 5 (.read 0 ["0R1,a=1#,Sx"] :: []) ⟨0, none⟩
        = ([], .crashed .valueError) :=
  claimC4_malformed_field_crashes 5 ⟨0, none⟩ 0 [] ["0R1,a=1#,Sx"]
    "0R1" "0" "1" "Sx" ["a=1#"] [("a", "1#")] []
    (by decide) rfl rfl (by decide) rfl

theorem hexNat_ok (l : List Char) (h : ∀ c ∈ l, isHexChar c = true) :
    ∃ n, hexNat l = some n := by
  induction l with
  | nil => exact ⟨0, rfl⟩
  | cons c cs ih =>
      have hc := h c (List.mem_cons_self c cs)
      unfold isHexChar at hc
      obtain ⟨d, hd⟩ := Option.isSome_iff_exists.mp hc
      obtain ⟨n, hn⟩ := ih (fun x hx => h x (List.mem_cons_of_mem c hx))
      refine ⟨d * 16 ^ cs.length + n, ?_⟩
      unfold hexNat
      rw [hd, hn]

/-- Claim C8 (modelled from the spec: the legacy fixed-length decoder is
not in src/, so `decode_legacy` is built from the spec's description):
decoding is a function, hence deterministic; every frame of exactly 48
hexadecimal ASCII characters decodes to its fixed-offset fields, and every
frame of any other length raises IncompleteFrame. -/
theorem claimC8_legacy_frame (frame : String) :
    (frame.length = 48 → (∀ c ∈ frame.data, isHexChar c = true) →
      ∃ r, decode_legacy frame = .ok r)
    ∧ (frame.length ≠ 48 → decode_legacy frame = .error .incompleteFrame) := by
  constructor
  · intro hlen hhex
    obtain ⟨p, hp⟩ := hexNat_ok ((frame.data.drop 16).take 4)
      (fun c hc => hhex c (List.drop_subset _ _ (List.take_subset _ _ hc)))
    obtain ⟨d, hd⟩ := hexNat_ok ((frame.data.drop 32).take 4)
      (fun c hc => hhex c (List.drop_subset _ _ (List.take_subset _ _ hc)))
    obtain ⟨m, hm⟩ := hexNat_ok ((frame.data.drop 36).take 4)
      (fun c hc => hhex c (List.drop_subset _ _ (List.take_subset _ _ hc)))
    refine ⟨⟨p, d, m⟩, ?_⟩
    unfold decode_legacy
    rw [if_pos hlen, hp, hd, hm]
  · intro hlen
    unfold decode_legacy
    rw [if_neg hlen]

/-- Claim C8 witness: a frame of 48 zeros decodes to a record, and a
three-character frame raises IncompleteFrame. -/
theorem claimC8_witness :
    (∃ r, decode_legacy "000000000000000000000000000000000000000000000000"
      = .ok r)
    ∧ decode_legacy "abc" = .error .incompleteFrame :=
  ⟨(claimC8_legacy_frame "000000000000000000000000000000000000000000000000").1
      (by decide) (by decide),
   (claimC8_legacy_frame "abc").2 (by decide)⟩

end WXT520
